import Mathlib

/-
Verification development for the Logo interpreter core in
apps/client/src/turtle-world/logo.js.

The file embeds the parser, the value model, the scope/binding model, the
evaluator with its builtin procedures, and the interpreter control surface
as executable Lean definitions, and proves theorems about concrete programs
and about general properties of those definitions.

Modelling conventions:

* JavaScript numbers are idealized as exact fractions: an integer
  numerator with a positive natural denominator, kept unnormalized
  (`JsNum`).  Every numeral and arithmetic step appearing in the verified
  programs is small-integer, where this agrees with IEEE doubles.
  Host coercion of non-numeric operands (NaN arithmetic, string
  concatenation via +, division by zero) is reported as
  `LogoErr.unmodelled`; no verified program reaches those branches.
* Logo lists are cons cells exactly as in the source (`List` records with
  head/tail); the unique empty list is `LogoVal.nil`, whose JS tail is a
  self-cycle, modelled by `tailOf .nil = .nil`.
* Mutable `Binding` cells live in an explicit store indexed by `Nat`; the
  variable-scope chain is a list of frames mapping names to cell indices,
  current frame first, the global (root) frame last.  This mirrors the
  prototype-chain lookup of `Scope`.
* The evaluator and parser are fuel-indexed: every mutually recursive
  handler consumes fuel, and running out of fuel is the distinguished
  result `timeout`/`PRes.out`.  A source-level loop that makes no progress
  therefore produces `out` at every fuel value.
* The host-asynchronous parts (pause parking, the `wait` timer, the
  `onbreak`/`oncontinue` callbacks and `break`) are modelled by a separate
  explicit machine over the interpreter control fields (`CtrlState`),
  since the synchronous evaluator embedding cannot express promises.
-/

namespace TurtleLogo

/-- JsNum is the idealized JavaScript number: an exact fraction with
integer numerator and positive natural denominator, unnormalized. -/
structure JsNum where
  n : Int
  d : Nat
deriving DecidableEq

/-- Embed an integer as a JsNum. -/
def JsNum.ofInt (i : Int) : JsNum := ⟨i, 1⟩

/-- Addition of idealized numbers (the JS + on two numbers). -/
def JsNum.add (a b : JsNum) : JsNum := ⟨a.n * b.d + b.n * a.d, a.d * b.d⟩

/-- Subtraction of idealized numbers. -/
def JsNum.sub (a b : JsNum) : JsNum := ⟨a.n * b.d - b.n * a.d, a.d * b.d⟩

/-- Multiplication of idealized numbers. -/
def JsNum.mul (a b : JsNum) : JsNum := ⟨a.n * b.n, a.d * b.d⟩

/-- Negation (the unary minus applied to a number). -/
def JsNum.neg (a : JsNum) : JsNum := ⟨-a.n, a.d⟩

/-- Division; `none` when the divisor is zero (JS would produce an
infinity, which the idealization does not represent). -/
def JsNum.divQ (a b : JsNum) : Option JsNum :=
  if b.n = 0 then none
  else some ⟨a.n * b.d * (if b.n < 0 then (-1) else 1), a.d * b.n.natAbs⟩

/-- Value comparison a < b. -/
def JsNum.ltb (a b : JsNum) : Bool := decide (a.n * b.d < b.n * a.d)

/-- Value comparison a > b. -/
def JsNum.gtb (a b : JsNum) : Bool := decide (b.n * a.d < a.n * b.d)

/-- Value equality (the JS === on two numbers). -/
def JsNum.eqb (a b : JsNum) : Bool := decide (a.n * b.d = b.n * a.d)

/-- Whether the value is an integer (JS index === (index | 0) for the
small values in range). -/
def JsNum.isInt (a : JsNum) : Bool := decide (a.n % (a.d : Int) = 0)

/-- The integer value (exact when `isInt`). -/
def JsNum.toInt (a : JsNum) : Int := a.n / (a.d : Int)

/-- LogoVal is the Logo value universe: numbers, booleans, strings
(words), and linked-list records.  As in the source, a list is either the
unique empty sentinel (`nil`) or a cons record with a head value and a
tail; programs, blocks and data lists are all such values. -/
inductive LogoVal : Type where
  | num (q : JsNum)
  | bool (b : Bool)
  | str (s : String)
  | nil
  | cons (head : LogoVal) (tail : LogoVal)

/-- Build a Logo list from a Lean list (the result of a ListBuilder). -/
def ofList : List LogoVal → LogoVal
  | [] => .nil
  | v :: rest => .cons v (ofList rest)

/-- List.prototype.isEmpty: only the empty sentinel has
head === undefined. -/
def isEmptyL : LogoVal → Bool
  | .cons _ _ => false
  | _ => true

/-- Head of a list cursor; `none` is JS undefined (the empty list's
head). -/
def headO : LogoVal → Option LogoVal
  | .cons h _ => some h
  | _ => none

/-- Tail of a list cursor; the empty list's tail is itself
(the self-cycle of the sentinel). -/
def tailOf : LogoVal → LogoVal
  | .cons _ t => t
  | v => v

/-- First character of a string, JS s[0] (undefined when empty). -/
def firstChar (s : String) : Option Char := s.data.head?

/-- Drop the first character, JS s.substr(1). -/
def strTail (s : String) : String := String.mk (s.data.drop 1)

/-- isNumber from the source, on a possibly-undefined value. -/
def isNumber : Option LogoVal → Bool
  | some (.num _) => true
  | _ => false

/-- isString from the source. -/
def isStringV : Option LogoVal → Bool
  | some (.str _) => true
  | _ => false

/-- isBoolean from the source. -/
def isBooleanV : Option LogoVal → Bool
  | some (.bool _) => true
  | _ => false

/-- isWord from the source: string, number or boolean. -/
def isWordV : Option LogoVal → Bool
  | some (.str _) => true
  | some (.num _) => true
  | some (.bool _) => true
  | _ => false

/-- isList from the source (instanceof List). -/
def isListV : Option LogoVal → Bool
  | some .nil => true
  | some (.cons _ _) => true
  | _ => false

/-- isQuoted from the source: a string starting with a double quote. -/
def isQuoted : Option LogoVal → Bool
  | some (.str s) => firstChar s == some '"'
  | _ => false

/-- isVariable from the source: a string starting with a colon. -/
def isVariable : Option LogoVal → Bool
  | some (.str s) => firstChar s == some ':'
  | _ => false

/-- The characters of reOperators.  Note that '=' is absent, exactly as
in the source regex /^[-+*\x2f<>]$/. -/
def opChars : List Char := ['-', '+', '*', '/', '<', '>']

/-- The characters of reDelimiters /^[-+*\x2f[\]()<>]$/; again '=' is
absent. -/
def delimChars : List Char := ['-', '+', '*', '/', '[', ']', '(', ')', '<', '>']

/-- reWhitespace: space, tab, newline, carriage return. -/
def isWhitespaceC (c : Char) : Bool := c = ' ' || c = '\t' || c = '\n' || c = '\r'

/-- isOperator from the source: a string matching reOperators, i.e. one
of the six single characters - + * / < > (not '='). -/
def isOperator : Option LogoVal → Bool
  | some (.str s) =>
      match s.data with
      | [c] => opChars.contains c
      | _ => false
  | _ => false

/-- isProcedure from the source: a string that is neither quoted nor a
variable reference. -/
def isProcedureW : Option LogoVal → Bool
  | some (.str s) => !(isQuoted (some (.str s))) && !(isVariable (some (.str s)))
  | _ => false

/-- isLiteral from the source: list, boolean, number, quoted word or
variable reference. -/
def isLiteral : Option LogoVal → Bool
  | some (.num _) => true
  | some (.bool _) => true
  | some .nil => true
  | some (.cons _ _) => true
  | some (.str s) => isQuoted (some (.str s)) || isVariable (some (.str s))
  | none => false

/-- List.equal from the source: identity / primitive === first, then
head-wise recursive structural comparison for lists.  On the inductive
model this is structural equality; numbers compare by value. -/
def logoEqual : LogoVal → LogoVal → Bool
  | .num a, .num b => a.eqb b
  | .bool a, .bool b => a == b
  | .str a, .str b => a == b
  | .nil, .nil => true
  | .cons h1 t1, .cons h2 t2 => logoEqual h1 h2 && logoEqual t1 t2
  | _, _ => false

/-- List.equal lifted to possibly-undefined arguments (undefined ===
undefined holds in JS). -/
def logoEqualO : Option LogoVal → Option LogoVal → Bool
  | none, none => true
  | some a, some b => logoEqual a b
  | _, _ => false

/-- Rendering of a numeric value with String(v).  Integer values render
as in JS; a non-integer fraction (never produced by the verified
programs, which only do integer arithmetic) renders as n/d rather than
in JS decimal notation. -/
def numToString (q : JsNum) : String :=
  if q.d = 1 then toString q.n
  else if q.isInt then toString q.toInt
  else toString q.n ++ "/" ++ toString q.d

/-- List.stringify from the source, as a single structural recursion.
The flag selects the position: `false` renders one value, `true` renders
the tail of a list as zero or more further space-separated items.  The
delimiter pair `d` wraps every list — it is passed through unchanged to
nested lists, exactly as in the source where the recursive call is
List.stringify(item, delimiters, stack).  The cycle-detection stack of
the source is dropped: inductive values are acyclic. -/
def stringifyGo (d : String × String) : Bool → LogoVal → String
  | true, .cons h t => " " ++ stringifyGo d false h ++ stringifyGo d true t
  | true, _ => ""
  | false, .cons h t => d.1 ++ stringifyGo d false h ++ stringifyGo d true t ++ d.2
  | false, .nil => d.1 ++ d.2
  | false, .num q => numToString q
  | false, .bool b => if b then ("true") else ("false")
  | false, .str s => s

/-- List.stringify(val, delimiters). -/
def stringify (d : String × String) (v : LogoVal) : String := stringifyGo d false v

/-- String(v) for an arbitrary (possibly undefined) value, as used when a
value is spliced into an error message or printed: lists stringify with
their default brackets. -/
def jsDescribe : Option LogoVal → String
  | none => "undefined"
  | some v => stringify ("[", "]") v

/-! ## Scopes, bindings and the store

A `Frame` maps names to store indices (Binding identities).  The variable
scope chain of the running interpreter is a list of frames, current scope
first, global (root) scope last; this is exactly the interpreter's scope
stack, since every pushed Scope has the previous top as its parent.  A
store cell holds the Binding's value, which may be undefined (`none`),
e.g. after `local`. -/

/-- One scope's own bindings: name to store index, newest first. -/
abbrev Frame := List (String × Nat)

/-- The store of Binding cells. -/
abbrev Store := List (Option LogoVal)

/-- Scope.prototype.getBinding: walk the chain, innermost scope first,
returning the first binding for the name (the prototype-chain lookup). -/
def scopeGetBinding : List Frame → String → Option Nat
  | [], _ => none
  | f :: rest, name =>
      match f.lookup name with
      | some id => some id
      | none => scopeGetBinding rest name

/-- Read a Binding cell. -/
def storeGet (store : Store) (id : Nat) : Option LogoVal := (store.get? id).getD none

/-- Scope.prototype.get, except that the unbound case is reported as
`none` (the source throws ReferenceError there); a bound cell's value is
returned even when it is undefined. -/
def scopeGet (frames : List Frame) (store : Store) (name : String) : Option (Option LogoVal) :=
  (scopeGetBinding frames name).map (storeGet store)

/-- Install a new binding in the root (last) frame of the chain, as
Scope.prototype.set does for unbound names. -/
def bindInRoot (frames : List Frame) (name : String) (id : Nat) : List Frame :=
  match frames with
  | [] => []
  | [root] => [(name, id) :: root]
  | f :: rest => f :: bindInRoot rest name id

/-- Scope.prototype.set: update the existing binding in place if the name
is bound anywhere in the chain, else create a fresh binding in the root
scope. -/
def scopeSet (frames : List Frame) (store : Store) (name : String) (val : LogoVal) :
    List Frame × Store :=
  match scopeGetBinding frames name with
  | some id => (frames, store.set id (some val))
  | none => (bindInRoot frames name store.length, store ++ [some val])

/-- Scope.prototype.bindValue on the current (first) frame: create a
fresh Binding cell holding `val` and install it, shadowing any parent
binding. -/
def bindValueCurrent (frames : List Frame) (store : Store) (name : String)
    (val : Option LogoVal) : List Frame × Store :=
  match frames with
  | [] => ([], store)
  | f :: rest => (((name, store.length) :: f) :: rest, store ++ [val])

/-! ## Interpreter control fields (execute / break / pause machinery)

The async control surface — `wait` installing `onbreak`, `checkBreak`
parking on pause, `break`/`continue`/`pause` from the host, and the
`finally` cleanup in `execute` — is modelled as an explicit machine over
the five control fields.  Callback identities: 0 is the canceller
installed by the `wait` builtin, 1 is the pair installed by a parked
`checkBreak`. -/

/-- The interpreter control fields touched by execute/break/pause. -/
structure CtrlState where
  running : Bool
  paused : Bool
  breakFlag : Bool
  onbreak : Option Nat
  oncontinue : Option Nat
deriving DecidableEq

/-- Control-field state at the start of the evaluation phase of
`execute` (running has just been set). -/
def ctrlStart : CtrlState :=
  { running := true, paused := false, breakFlag := false,
    onbreak := none, oncontinue := none }

/-- Events that touch the control fields during a run. -/
inductive CtrlEv : Type where
  | waitRegister
  | waitTimerFire
  | parkAtCheckBreak
  | hostPause
  | hostContinue
  | hostBreak
deriving DecidableEq

/-- One event's effect on the control fields, following the source:

* `waitRegister` — the `wait` builtin installs its canceller in
  `this.onbreak`.
* `waitTimerFire` — the timer resolves: `this.onbreak = null`.
* `parkAtCheckBreak` — `checkBreak` with `paused` set installs an
  `oncontinue` resolver and an `onbreak` rejecter.
* `hostPause` — `pause()` sets `paused` (it throws, changing nothing,
  when not running or already paused).
* `hostContinue` — `continue()` clears `paused` and invokes
  `this.oncontinue()`; the field itself is not cleared.
* `hostBreak` — `break()` sets `breakFlag`, invokes `this.onbreak` if
  installed (the `wait` canceller only clears its host timer and
  rejects; the `checkBreak` rejecter also sets `this.oncontinue = null`),
  then calls `continue()` if paused.  Neither path sets
  `this.onbreak = null`. -/
def ctrlStep (s : CtrlState) (e : CtrlEv) : CtrlState :=
  match e with
  | .waitRegister => { s with onbreak := some 0 }
  | .waitTimerFire => { s with onbreak := none }
  | .parkAtCheckBreak =>
      if s.paused then { s with oncontinue := some 1, onbreak := some 1 } else s
  | .hostPause =>
      if s.running && !s.paused then { s with paused := true } else s
  | .hostContinue =>
      if s.running && s.paused then { s with paused := false } else s
  | .hostBreak =>
      if s.running && !s.breakFlag then
        let s1 := { s with breakFlag := true }
        let s2 :=
          match s1.onbreak with
          | some 1 => { s1 with oncontinue := none }
          | _ => s1
        if s2.paused then { s2 with paused := false } else s2
      else s

/-- The `finally` block of Interpreter.execute: clear `breakFlag` and
`running`.  This is the complete cleanup the source performs — the
`onbreak` and `oncontinue` fields are not touched. -/
def executeSettle (s : CtrlState) : CtrlState :=
  { s with breakFlag := false, running := false }

/-- Control fields after `execute` settles, for a run whose evaluation
phase performed the given events. -/
def runCtrl (evs : List CtrlEv) : CtrlState := executeSettle (evs.foldl ctrlStep ctrlStart)

/-! ## Errors -/

/-- The error taxonomy of the interpreter: SyntaxError (`stx`),
TypeError (`typ`), ReferenceError (`ref`), plain Error (`host`), plus
`unmodelled` for host-coercion branches the idealized number model does
not represent (never reached by the verified programs). -/
inductive LogoErr : Type where
  | stx (msg : String)
  | typ (msg : String)
  | ref (msg : String)
  | host (msg : String)
  | unmodelled (msg : String)
deriving DecidableEq

/-! ## Parser

Interpreter.parse walks the character stream with a cursor `end` (here
`pos`), a current ListBuilder (`acc`) and a stack of suspended builders
(`stk`) for open brackets.  The `start` cursor of the source feeds only
the source map, which is not modelled; the unary-minus lookbehind uses
`prev()` = charAt(pos - 1), which is modelled. -/

/-- Parser state: remaining source (as characters), position, current
builder contents, and the builder stack of enclosing open lists. -/
structure PSt where
  src : List Char
  pos : Nat
  acc : List LogoVal
  stk : List (List LogoVal)

/-- Result of one parser routine: an updated state, a thrown error, or
fuel exhaustion. -/
inductive PStep : Type where
  | next (p : PSt)
  | fail (e : LogoErr)
  | out

/-- Result of a whole parse. -/
inductive PRes : Type where
  | done (prog : LogoVal)
  | fail (e : LogoErr)
  | out

/-- peek(): charAt(pos); none is the empty string JS returns out of
range. -/
def peekP (p : PSt) : Option Char := p.src.get? p.pos

/-- prev(): charAt(pos - 1). -/
def prevP (p : PSt) : Option Char :=
  if p.pos = 0 then none else p.src.get? (p.pos - 1)

/-- consume(): advance the cursor. -/
def consumeP (p : PSt) : PSt := { p with pos := p.pos + 1 }

/-- record(val): push the token onto the current builder (the source-map
entry is not modelled). -/
def recordP (p : PSt) (v : LogoVal) : PSt := { p with acc := p.acc ++ [v] }

/-- parseComment: the ";" has been seen; consume through the end of the
line (or input) and discard. -/
def parseCommentF : Nat → PSt → PStep
  | 0, _ => .out
  | fuel + 1, p =>
      let c := peekP p
      let p1 := consumeP p
      match c with
      | none => .next p1
      | some ch => if ch = '\n' || ch = '\r' then .next p1 else parseCommentF fuel p1

/-- parseWord: accumulate characters until whitespace, a delimiter or end
of input.  A delimiter directly after an initial double quote (except a
bracket) joins the word; backslash escapes the next character.  Note the
delimiter branch records the token without consuming the delimiter
character. -/
def parseWordF : Nat → PSt → List Char → PStep
  | 0, _, _ => .out
  | fuel + 1, p, token =>
      match peekP p with
      | none => .next (recordP p (.str (String.mk token)))
      | some c =>
        if isWhitespaceC c then .next (recordP p (.str (String.mk token)))
        else if delimChars.contains c then
          if token = ['"'] && c ≠ '[' && c ≠ ']' then
            parseWordF fuel (consumeP p) (token ++ [c])
          else .next (recordP p (.str (String.mk token)))
        else if c = '\\' then
          let p1 := consumeP p
          match peekP p1 with
          | none => parseWordF fuel (consumeP p1) token
          | some c2 => parseWordF fuel (consumeP p1) (token ++ [c2])
        else parseWordF fuel (consumeP p) (token ++ [c])

/-- Consume a run of digits, appending them to the token. -/
def takeDigitsF : Nat → PSt → List Char → Option (List Char × PSt)
  | 0, _, _ => none
  | fuel + 1, p, token =>
      match peekP p with
      | some c => if c.isDigit then takeDigitsF fuel (consumeP p) (token ++ [c]) else some (token, p)
      | none => some (token, p)

/-- Digit run of a numeral: value, digit count, and rest. -/
def digitsVal : Nat → Nat → List Char → Nat × Nat × List Char
  | acc, k, [] => (acc, k, [])
  | acc, k, c :: rest =>
      if c.isDigit then digitsVal (acc * 10 + (c.toNat - 48)) (k + 1) rest
      else (acc, k, c :: rest)

/-- The exact value of a recorded numeral token (idealized
parseFloat): optional sign, integer digits, optional fraction, optional
exponent with optional sign. -/
def parseNum (tok : List Char) : JsNum :=
  let s : Int × List Char :=
    match tok with
    | '-' :: r => (-1, r)
    | r => (1, r)
  let ir := digitsVal 0 0 s.2
  let fr : Nat × Nat × List Char :=
    match ir.2.2 with
    | '.' :: r => digitsVal 0 0 r
    | r => (0, 0, r)
  let e : Int :=
    match fr.2.2 with
    | 'e' :: r =>
        match r with
        | '-' :: r3 => -(((digitsVal 0 0 r3).1 : Int))
        | '+' :: r3 => ((digitsVal 0 0 r3).1 : Int)
        | r3 => ((digitsVal 0 0 r3).1 : Int)
    | _ => 0
  let mant : Int := s.1 * ((ir.1 * 10 ^ fr.2.1 + fr.1 : Nat) : Int)
  if 0 ≤ e then ⟨mant * 10 ^ e.toNat, 10 ^ fr.2.1⟩
  else ⟨mant, 10 ^ fr.2.1 * 10 ^ (-e).toNat⟩

/-- Final step of parseNumber: the numeral is recorded only when the next
character is end of input, a delimiter or whitespace; otherwise the
routine returns with the consumed digits silently dropped (no record and
no position reset), as in the source. -/
def numFinish (tok : List Char) (p : PSt) : PStep :=
  match peekP p with
  | none => .next (recordP p (.num (parseNum tok)))
  | some c =>
      if delimChars.contains c || isWhitespaceC c then .next (recordP p (.num (parseNum tok)))
      else .next p

/-- Exponent part of parseNumber. -/
def numExpF (fuel : Nat) (tok : List Char) (p : PSt) : PStep :=
  match peekP p with
  | some c =>
      if c = 'e' then
        let p1 := consumeP p
        let step : List Char × PSt :=
          match peekP p1 with
          | some sc => if sc = '-' || sc = '+' then (tok ++ ['e', sc], consumeP p1) else (tok ++ ['e'], p1)
          | none => (tok ++ ['e'], p1)
        match takeDigitsF fuel step.2 step.1 with
        | none => .out
        | some (tok2, p2) => numFinish tok2 p2
      else numFinish tok p
  | none => numFinish tok p

/-- Fractional part of parseNumber: a '.' must be followed by at least
one digit, else SyntaxError "Expected decimals". -/
def numFracF (fuel : Nat) (tok : List Char) (p : PSt) : PStep :=
  match peekP p with
  | some c =>
      if c = '.' then
        let p1 := consumeP p
        match peekP p1 with
        | some dch =>
            if dch.isDigit then
              match takeDigitsF fuel (consumeP p1) (tok ++ ['.', dch]) with
              | none => .out
              | some (tok2, p2) => numExpF fuel tok2 p2
            else .fail (.stx ("Expected decimals"))
        | none => .fail (.stx ("Expected decimals"))
      else numExpF fuel tok p
  | none => numExpF fuel tok p

/-- parseNumber: called when the current character is '-' or a digit.  A
'-' not preceded by start-of-input/whitespace or not followed by a digit
is recorded as the single-character operator token instead. -/
def parseNumberF (fuel : Nat) (p : PSt) : PStep :=
  let last := prevP p
  match peekP p with
  | none => .fail (.stx ("parseNumber at end of input"))
  | some c0 =>
      let p1 := consumeP p
      let minusEscape : Bool :=
        if c0 = '-' then
          let lastOk : Bool := match last with | none => true | some l => isWhitespaceC l
          let nextDigit : Bool := match peekP p1 with | some nc => nc.isDigit | none => false
          !(lastOk && nextDigit)
        else false
      if minusEscape then .next (recordP p1 (.str ("-")))
      else
        match takeDigitsF fuel p1 [c0] with
        | none => .out
        | some (tok1, p2) => numFracF fuel tok1 p2

mutual

/-- parseMain: dispatch on the current character.  Comments, open
brackets, whitespace, numerals (and the minus escape), parens, operator
characters, and words.  The source's separate reNewline branch is dead
code (reWhitespace already matches newlines).  The character ']' matches
none of the classes here (it is handled inside parseList before calling
parseMain) and therefore falls through to parseWord. -/
def parseMainF : Nat → PSt → PStep
  | 0, _ => .out
  | fuel + 1, p =>
      match peekP p with
      | none => .fail (.stx ("End of input"))
      | some c =>
        if c = ';' then parseCommentF fuel (consumeP p)
        else if c = '[' then
          parseListF fuel { consumeP p with acc := [], stk := p.acc :: p.stk }
        else if isWhitespaceC c then .next (consumeP p)
        else if c = '-' || c.isDigit then parseNumberF fuel p
        else if c = '(' || c = ')' then .next (recordP (consumeP p) (.str (String.mk [c])))
        else if opChars.contains c then .next (recordP (consumeP p) (.str (String.mk [c])))
        else parseWordF fuel p []
termination_by structural fuel => fuel

/-- parseList: loop after an open bracket; ']' closes the sublist and
records it at the outer level, end of input fails.  The builder-stack
underflow branch is unreachable: parseList always pushed a frame. -/
def parseListF : Nat → PSt → PStep
  | 0, _ => .out
  | fuel + 1, p =>
      match peekP p with
      | none => .fail (.stx ("End of input in list"))
      | some c =>
        if c = ']' then
          match p.stk with
          | outer :: rest =>
              .next (recordP { consumeP p with acc := outer, stk := rest } (ofList p.acc))
          | [] => .fail (.stx ("builder stack underflow"))
        else
          match parseMainF fuel p with
          | .next p1 => parseListF fuel p1
          | .fail e => .fail e
          | .out => .out
termination_by structural fuel => fuel

end

/-- The top-level loop of Interpreter.parse: repeat parseMain until the
input is exhausted, then return the built program list. -/
def parseTopF : Nat → PSt → PRes
  | 0, _ => .out
  | fuel + 1, p =>
      match peekP p with
      | none => .done (ofList p.acc)
      | some _ =>
        match parseMainF fuel p with
        | .next p1 => parseTopF fuel p1
        | .fail e => .fail e
        | .out => .out

/-- Interpreter.parse(source). -/
def parse (fuel : Nat) (source : String) : PRes :=
  parseTopF fuel { src := source.data, pos := 0, acc := [], stk := [] }

/-! ## Evaluator

The evaluator walks a program list with a cursor, with mutually recursive
handlers mirroring evaluate / handleArg / handleLiteral / handleFixed /
handleVariadic / handleOperator / handleTo and performCall.  State is
threaded explicitly; `Res.timeout` is fuel exhaustion.  The source
captures `scope` and `context` once per evaluate() call; since the scope
and context stacks are balanced around every nested call, reading the
current top of each stack at every use site is equivalent, and that is
how the model reads them. -/

/-- Context: the activation record holding the `output` slot and the
`stop` flag. -/
structure Context where
  output : Option LogoVal
  stop : Bool

/-- The builtin procedures needed by the verified programs (a subset of
the full registry; looking up any other name fails exactly like an
unknown user procedure, which no verified program does). -/
inductive BKind : Type where
  | print
  | showB
  | add
  | sub
  | mul
  | div
  | lt
  | gt
  | eqp
  | stop
  | outputB
  | run
  | runresult
  | repeatB
  | item
  | first
  | uminus
deriving DecidableEq

/-- Declared positional arity (JS Function.length: parameters before a
rest parameter). -/
def BKind.arity : BKind → Nat
  | .print => 1
  | .showB => 1
  | .add => 2
  | .sub => 2
  | .mul => 2
  | .div => 2
  | .lt => 2
  | .gt => 2
  | .eqp => 2
  | .stop => 0
  | .outputB => 1
  | .run => 1
  | .runresult => 1
  | .repeatB => 2
  | .item => 2
  | .first => 1
  | .uminus => 1

/-- A procedure-scope value: a builtin, or a user procedure built by
Interpreter.procedure (argument names plus saved body list). -/
inductive Proc : Type where
  | builtin (name : String) (kind : BKind)
  | user (name : String) (argNames : List String) (body : LogoVal)

/-- func.length. -/
def Proc.arity : Proc → Nat
  | .builtin _ k => k.arity
  | .user _ argNames _ => argNames.length

/-- func.name, used in error messages. -/
def Proc.procName : Proc → String
  | .builtin n _ => n
  | .user n _ _ => n

/-- Interpreter state: the variable-scope stack (current frame first,
global frame last — every pushed Scope has the previous top as parent,
so the stack is the chain), the Binding store, the context stack, the
procedure scope, the lines printed so far, and the control flags. -/
structure LogoState where
  frames : List Frame
  store : Store
  contexts : List Context
  procs : List (String × Proc)
  printed : List String
  running : Bool
  breakFlag : Bool
  paused : Bool

/-- Result of an evaluator step: a value with the state, a thrown error
with the state at the throw, or fuel exhaustion. -/
inductive Res (α : Type) : Type where
  | ok (val : α) (st : LogoState)
  | err (e : LogoErr) (st : LogoState)
  | timeout

/-- currentContext().stop. -/
def currentStop (st : LogoState) : Bool :=
  match st.contexts with
  | c :: _ => c.stop
  | [] => false

/-- currentContext() === globalContext: the global context is the bottom
of the stack, so this holds exactly when no procedure frame is pushed. -/
def atGlobalContext (st : LogoState) : Bool := st.contexts.length ≤ 1

/-- Mutate the current (top) context. -/
def setCurrentCtx (st : LogoState) (f : Context → Context) : LogoState :=
  { st with contexts :=
      match st.contexts with
      | c :: rest => f c :: rest
      | [] => [] }

/-- Scope.set on the procedure scope (a single root scope): replace the
binding if present, else create it. -/
def procSet (ps : List (String × Proc)) (name : String) (p : Proc) : List (String × Proc) :=
  match ps with
  | [] => [(name, p)]
  | (n, q) :: rest => if n = name then (n, p) :: rest else (n, q) :: procSet rest name p

/-- args[i], undefined beyond the end. -/
def argN (args : List (Option LogoVal)) (i : Nat) : Option LogoVal := (args.get? i).getD none

/-- checkBreak: fail when a break is requested; a parked pause never
resumes inside the synchronous model, so it is fuel-independent
non-progress (`timeout`).  The verified programs run with both flags
clear. -/
def checkBreakR (st : LogoState) : Res Unit :=
  if st.breakFlag then .err (.host ("Break requested")) st
  else if st.paused then .timeout
  else .ok () st

/-- Stringification of one print/show argument (String(undefined) is
"undefined"). -/
def jsArgStr (d : String × String) : Option LogoVal → String
  | none => "undefined"
  | some v => stringify d v

/-- Array.prototype.join(" "). -/
def joinSpace : List String → String
  | [] => ""
  | [x] => x
  | x :: xs => x ++ " " ++ joinSpace xs

/-- The list walk inside the `item` builtin: n starts at 1 and is
compared with the requested index, so list indexing is 1-based; walking
off the end raises the beyond-length TypeError. -/
def itemWalk (n : Int) (idx : Int) : LogoVal → LogoState → Res (Option LogoVal)
  | .cons h t, st => if n = idx then .ok (some h) st else itemWalk (n + 1) idx t st
  | _, st => .err (.typ ("index is beyond list length")) st

/-- The `item` builtin.  For strings the source checks
index > thing.length but then returns thing[index], a 0-based JS
character access; index = length therefore yields undefined rather than
an error.  For lists the walk is 1-based. -/
def itemB (args : List (Option LogoVal)) (st : LogoState) : Res (Option LogoVal) :=
  match argN args 0 with
  | some (.num idx) =>
      if idx.n < 0 then .err (.typ ("index must be non-negative")) st
      else if !idx.isInt then .err (.typ ("index must be an integer")) st
      else
        match argN args 1 with
        | some (.str s) =>
            if (s.length : Int) < idx.toInt then .err (.typ ("index is beyond string length")) st
            else
              match s.data.get? idx.toInt.toNat with
              | some c => .ok (some (.str (String.mk [c]))) st
              | none => .ok none st
        | some .nil => itemWalk 1 idx.toInt .nil st
        | some (.cons h t) => itemWalk 1 idx.toInt (.cons h t) st
        | _ => .err (.typ ("Expected list")) st
  | _ => .err (.typ ("index must be a number")) st

/-- The `first` builtin: first character of a word / head of a list. -/
def firstB (args : List (Option LogoVal)) (st : LogoState) : Res (Option LogoVal) :=
  match argN args 0 with
  | some (.str s) =>
      match s.data with
      | [] => .err (.typ ("empty string")) st
      | c :: _ => .ok (some (.str (String.mk [c]))) st
  | some .nil => .err (.typ ("empty list")) st
  | some (.cons h _) => .ok (some h) st
  | _ => .err (.typ ("must be a string or list")) st

/-- handleLiteral: lists/booleans/numbers as-is, a quoted word stripped
of its quote, a variable reference replaced by the scope lookup (whose
cell may hold undefined), anything else a SyntaxError. -/
def handleLiteralF (iter : LogoVal) (st : LogoState) : Res (Option LogoVal × LogoVal) :=
  match iter with
  | .cons v rest =>
      match v with
      | .num q => .ok (some (.num q), rest) st
      | .bool b => .ok (some (.bool b), rest) st
      | .nil => .ok (some .nil, rest) st
      | .cons h t => .ok (some (.cons h t), rest) st
      | .str s =>
          match firstChar s with
          | some c =>
              if c = '"' then .ok (some (.str (strTail s)), rest) st
              else if c = ':' then
                match scopeGet st.frames st.store (strTail s) with
                | none => .err (.ref ("Undeclared variable " ++ strTail s)) st
                | some cell => .ok (cell, rest) st
              else .err (.stx ("Unexpected token " ++ s)) st
          | none => .err (.stx ("Unexpected token " ++ s)) st
  | _ => .err (.stx ("Unexpected token undefined")) st

/-- validateCommand: the unary-minus hack substitutes a negation callable
of arity 1 when a bare '-' appears in command position (binary = false);
otherwise the command must be a string bound in the procedure scope. -/
def validateCommandF (command : Option LogoVal) (binary : Bool) (st : LogoState) :
    Except LogoErr Proc :=
  match command with
  | some (.str s) =>
      if !binary && s = "-" then .ok (.builtin ("unaryMinus") .uminus)
      else
        match st.procs.lookup s with
        | none => .error (.typ ("Unbound function: " ++ s))
        | some f => .ok f
  | other => .error (.stx ("Invalid command word: " ++ jsDescribe other))

/-- The word "to" in statement position. -/
def isToWord : LogoVal → Bool
  | .str s => s = "to"
  | _ => false

/-- The word "end" terminating a procedure body. -/
def isEndWord : LogoVal → Bool
  | .str s => s = "end"
  | _ => false

/-- A "(" token at the cursor. -/
def isLParenHead : LogoVal → Bool
  | .cons (.str s) _ => s = "("
  | _ => false

/-- A ")" token at the cursor. -/
def isRParenHead : LogoVal → Bool
  | .cons (.str s) _ => s = ")"
  | _ => false

/-- A ")" token value. -/
def isRParenV : LogoVal → Bool
  | .str s => s = ")"
  | _ => false

/-- Collect the :arg names after the procedure name in handleTo; `none`
is end of input. -/
def collectArgsT : LogoVal → Option (List String × LogoVal)
  | .cons v rest =>
      match v with
      | .str s =>
          match firstChar s with
          | some c =>
              if c = ':' then
                match collectArgsT rest with
                | none => none
                | some (as, it) => some (strTail s :: as, it)
              else some ([], .cons (.str s) rest)
          | none => some ([], .cons (.str s) rest)
      | other => some ([], .cons other rest)
  | _ => none

/-- Collect the body tokens up to the literal word "end" in handleTo;
`none` is end of input. -/
def collectBodyT : LogoVal → Option (List LogoVal × LogoVal)
  | .cons v rest =>
      if isEndWord v then some ([], rest)
      else
        match collectBodyT rest with
        | none => none
        | some (b, it) => some (v :: b, it)
  | _ => none

/-- handleTo: read the name, the argument names, and the body up to
"end"; build the procedure and install it with Scope.set in the
procedure scope.  Returns the cursor after "end". -/
def handleToF (iter : LogoVal) (st : LogoState) : Res LogoVal :=
  match tailOf iter with
  | .cons nameV rest2 =>
      match nameV with
      | .str name =>
          match collectArgsT rest2 with
          | none => .err (.stx ("End of input reading procedure definition")) st
          | some (args, it2) =>
              match collectBodyT it2 with
              | none => .err (.stx ("End of input reading procedure definition")) st
              | some (body, it3) =>
                  .ok it3 { st with procs := procSet st.procs name (.user name args (ofList body)) }
      | _ => .err (.stx ("Procedure name must be a word")) st
  | _ => .err (.stx ("End of input expecting procedure name")) st

/-- The operator priority table; '=' has an entry although isOperator
never matches it. -/
def precedence : String → Option Nat
  | "*" => some 10
  | "/" => some 10
  | "+" => some 5
  | "-" => some 5
  | "<" => some 1
  | ">" => some 1
  | "=" => some 1
  | _ => none

/-- The priority used by handleOperator.  handleOperator is only entered
under isOperator, whose six characters all have table entries, so the
default is never used. -/
def precOf (op : String) : Nat := (precedence op).getD 0

/-- The result shaping of `runresult`: undefined becomes the empty list,
a value becomes a one-element list. -/
def runresultGo : Res (Option LogoVal) → Res (Option LogoVal)
  | .ok none st => .ok (some .nil) st
  | .ok (some v) st => .ok (some (.cons v .nil)) st
  | .err e st => .err e st
  | .timeout => .timeout

/-- Bind the formal argument names of a user procedure to the actuals in
a fresh frame (missing actuals bind undefined, extras are ignored). -/
def bindArgsU : List String → List (Option LogoVal) → Frame → Store → Frame × Store
  | [], _, frame, store => (frame, store)
  | n :: rest, args, frame, store =>
      bindArgsU rest args.tail ((n, store.length) :: frame) (store ++ [argN args 0])

/-- Pop the scope and context pushed by a user-procedure call (the
`finally` of the procedure callable). -/
def popFrames (st : LogoState) : LogoState :=
  { st with frames := st.frames.tail, contexts := st.contexts.tail }

mutual

/-- evaluate(body). -/
def evaluateF : Nat → LogoVal → LogoState → Res (Option LogoVal)
  | 0, _, _ => .timeout
  | fuel + 1, body, st => evalLoopF fuel none body st
termination_by structural fuel => fuel

/-- The statement loop of evaluate: exit returning `retval` when the
context's stop flag is set; a pending value with tokens remaining is the
extra-instructions SyntaxError; `to` dispatches to handleTo; otherwise
evaluate one expression and remember its value. -/
def evalLoopF : Nat → Option LogoVal → LogoVal → LogoState → Res (Option LogoVal)
  | 0, _, _, _ => .timeout
  | fuel + 1, retval, iter, st =>
      if currentStop st then .ok retval st
      else
        match retval with
        | some v =>
            if isEmptyL iter then .ok (some v) st
            else .err (.stx ("Extra instructions after a value-returning expression: " ++
                             jsDescribe (headO iter))) st
        | none =>
            match iter with
            | .cons v rest =>
                if isToWord v then
                  match handleToF (.cons v rest) st with
                  | .ok it2 st2 => evalLoopF fuel none it2 st2
                  | .err e st2 => .err e st2
                  | .timeout => .timeout
                else
                  match handleArgF fuel 0 (.cons v rest) st with
                  | .ok (rv, it2) st2 => evalLoopF fuel rv it2 st2
                  | .err e st2 => .err e st2
                  | .timeout => .timeout
            | _ => .ok none st
termination_by structural fuel => fuel

/-- handleArg(prio): variadic for "(", literal for literal heads, fixed
otherwise; then hand an operator token at the new cursor to
handleOperator. -/
def handleArgF : Nat → Nat → LogoVal → LogoState → Res (Option LogoVal × LogoVal)
  | 0, _, _, _ => .timeout
  | fuel + 1, prio, iter, st =>
      let step : Res (Option LogoVal × LogoVal) :=
        if isLParenHead iter then handleVariadicF fuel iter st
        else if isLiteral (headO iter) then handleLiteralF iter st
        else handleFixedF fuel iter st
      match step with
      | .ok (rv, it2) st2 =>
          if isOperator (headO it2) then handleOperatorF fuel rv prio it2 st2
          else .ok (rv, it2) st2
      | .err e st2 => .err e st2
      | .timeout => .timeout
termination_by structural fuel => fuel

/-- handleOperator(leftValue, oldprio): precedence climbing.  A lower
priority than the context returns the left value unchanged; otherwise
parse the right operand with the operator's priority, let a following
operator of priority >= this one absorb the right operand, apply the
operator, and chain a following operator on the result. -/
def handleOperatorF : Nat → Option LogoVal → Nat → LogoVal → LogoState →
    Res (Option LogoVal × LogoVal)
  | 0, _, _, _, _ => .timeout
  | fuel + 1, leftValue, oldprio, iter, st =>
      match iter with
      | .cons (.str op) rest =>
          let prio := precOf op
          if prio < oldprio then .ok (leftValue, .cons (.str op) rest) st
          else
            match validateCommandF (some (.str op)) true st with
            | .error e => .err e st
            | .ok func =>
                match handleArgF fuel prio rest st with
                | .ok (right0, it2) st2 =>
                    let absorbed : Res (Option LogoVal × LogoVal) :=
                      match headO it2 with
                      | some (.str other) =>
                          if isOperator (some (.str other)) && prio ≤ precOf other then
                            handleOperatorF fuel right0 (precOf other) it2 st2
                          else .ok (right0, it2) st2
                      | _ => .ok (right0, it2) st2
                    match absorbed with
                    | .ok (rightValue, it3) st3 =>
                        match performCallF fuel func [leftValue, rightValue] st3 with
                        | .ok retval st4 =>
                            match headO it3 with
                            | some (.str other2) =>
                                if isOperator (some (.str other2)) then
                                  handleOperatorF fuel retval (precOf other2) it3 st4
                                else .ok (retval, it3) st4
                            | _ => .ok (retval, it3) st4
                        | .err e st4 => .err e st4
                        | .timeout => .timeout
                    | .err e st3 => .err e st3
                    | .timeout => .timeout
                | .err e st2 => .err e st2
                | .timeout => .timeout
      | other => .ok (leftValue, other) st
termination_by structural fuel => fuel

/-- handleFixed: reject ")", validate the command word (with the
unary-minus hack), then collect arguments. -/
def handleFixedF : Nat → LogoVal → LogoState → Res (Option LogoVal × LogoVal)
  | 0, _, _ => .timeout
  | fuel + 1, iter, st =>
      if isRParenHead iter then .err (.stx ("Unexpected close paren")) st
      else
        match validateCommandF (headO iter) false st with
        | .error e => .err e st
        | .ok func => fixedLoopF fuel func [] (tailOf iter) st
termination_by structural fuel => fuel

/-- The argument loop of handleFixed: the enclosing context's stop flag
exits with undefined; once the declared arity is reached the call is
performed; end of input or ")" in argument position fail; an argument
producing no value fails.  The prio parameter of handleFixed is its
default 0 at every call site and is forwarded to handleArg as such. -/
def fixedLoopF : Nat → Proc → List (Option LogoVal) → LogoVal → LogoState →
    Res (Option LogoVal × LogoVal)
  | 0, _, _, _, _ => .timeout
  | fuel + 1, func, args, iter, st =>
      if currentStop st then .ok (none, iter) st
      else if func.arity ≤ args.length then
        match performCallF fuel func args st with
        | .ok retval st2 => .ok (retval, iter) st2
        | .err e st2 => .err e st2
        | .timeout => .timeout
      else
        match iter with
        | .cons v rest =>
            if isRParenV v then .err (.stx ("Unexpected close paren")) st
            else
              match handleArgF fuel 0 (.cons v rest) st with
              | .ok (some rv, it2) st2 => fixedLoopF fuel func (args ++ [some rv]) it2 st2
              | .ok (none, _) st2 =>
                  .err (.stx ("Expected output from arg to " ++ func.procName)) st2
              | .err e st2 => .err e st2
              | .timeout => .timeout
        | _ => .err (.stx ("End of input expecting fixed arg")) st
termination_by structural fuel => fuel

/-- handleVariadic: consume "(", then either a procedure name or a
leading literal expression, then arguments until ")". -/
def handleVariadicF : Nat → LogoVal → LogoState → Res (Option LogoVal × LogoVal)
  | 0, _, _ => .timeout
  | fuel + 1, iter, st =>
      match tailOf iter with
      | .cons command rest =>
          if isProcedureW (some command) then
            match validateCommandF (some command) false st with
            | .error e => .err e st
            | .ok func =>
                variadicLoopF fuel (jsDescribe (some command)) (some func) none [] rest st
          else
            match handleArgF fuel 0 (.cons command rest) st with
            | .ok (lit, it2) st2 =>
                variadicLoopF fuel (jsDescribe (some command)) none lit [] it2 st2
            | .err e st2 => .err e st2
            | .timeout => .timeout
      | _ => .err (.stx ("End of input expecting variadic command")) st
termination_by structural fuel => fuel

/-- The argument loop of handleVariadic: ")" closes the call — a named
procedure requires at least its declared arity and is then performed, a
leading literal must have collected no further arguments; otherwise
parse one more argument, which must produce a value. -/
def variadicLoopF : Nat → String → Option Proc → Option LogoVal → List (Option LogoVal) →
    LogoVal → LogoState → Res (Option LogoVal × LogoVal)
  | 0, _, _, _, _, _, _ => .timeout
  | fuel + 1, cmdStr, funcOpt, lit, args, iter, st =>
      if currentStop st then .ok (none, iter) st
      else
        match iter with
        | .cons v rest =>
            if isRParenV v then
              match funcOpt with
              | some func =>
                  if args.length < func.arity then
                    .err (.stx ("Not enough args to " ++ cmdStr)) st
                  else
                    match performCallF fuel func args st with
                    | .ok retval st2 => .ok (retval, rest) st2
                    | .err e st2 => .err e st2
                    | .timeout => .timeout
              | none =>
                  match args with
                  | [] => .ok (lit, rest) st
                  | _ => .err (.stx ("Got unexpected args to a literal")) st
            else
              match handleArgF fuel 0 (.cons v rest) st with
              | .ok (some rv, it2) st2 =>
                  variadicLoopF fuel cmdStr funcOpt lit (args ++ [some rv]) it2 st2
              | .ok (none, _) st2 =>
                  .err (.stx ("Expected output from arg to " ++ cmdStr)) st2
              | .err e st2 => .err e st2
              | .timeout => .timeout
        | _ => .err (.stx ("End of input expecting variadic arg")) st
termination_by structural fuel => fuel

/-- performCall: checkBreak, then apply.  The oncall/onvalue observers
are not installed in the modelled configuration. -/
def performCallF : Nat → Proc → List (Option LogoVal) → LogoState → Res (Option LogoVal)
  | 0, _, _, _ => .timeout
  | fuel + 1, func, args, st =>
      match checkBreakR st with
      | .ok _ st1 => applyProcF fuel func args st1
      | .err e st1 => .err e st1
      | .timeout => .timeout
termination_by structural fuel => fuel

/-- Apply a procedure: builtins dispatch to their implementations; a user
procedure pushes a fresh scope binding its argument names and a fresh
context, evaluates the saved body, pops both on every exit path, and
returns the context's output slot. -/
def applyProcF : Nat → Proc → List (Option LogoVal) → LogoState → Res (Option LogoVal)
  | 0, _, _, _ => .timeout
  | fuel + 1, func, args, st =>
      match func with
      | .builtin _ kind => bapplyF fuel kind args st
      | .user _ argNames body =>
          let fs := bindArgsU argNames args [] st.store
          let st1 := { st with
                        frames := fs.1 :: st.frames
                        store := fs.2
                        contexts := { output := none, stop := false } :: st.contexts }
          match evaluateF fuel body st1 with
          | .ok _ st2 =>
              let out : Option LogoVal :=
                match st2.contexts with
                | c :: _ => c.output
                | [] => none
              .ok out (popFrames st2)
          | .err e st2 => .err e (popFrames st2)
          | .timeout => .timeout
termination_by structural fuel => fuel

/-- The builtin implementations used by the verified programs, each
mirroring its source function. -/
def bapplyF : Nat → BKind → List (Option LogoVal) → LogoState → Res (Option LogoVal)
  | 0, _, _, _ => .timeout
  | fuel + 1, kind, args, st =>
      match kind with
      | .print =>
          .ok none { st with printed := st.printed ++ [joinSpace (args.map (jsArgStr ("", "")))] }
      | .showB =>
          .ok none { st with printed := st.printed ++ [joinSpace (args.map (jsArgStr ("[", "]")))] }
      | .add =>
          match argN args 0, argN args 1 with
          | some (.num a), some (.num b) => .ok (some (.num (a.add b))) st
          | _, _ => .err (.unmodelled ("host coercion in +")) st
      | .sub =>
          match argN args 0, argN args 1 with
          | some (.num a), some (.num b) => .ok (some (.num (a.sub b))) st
          | _, _ => .err (.unmodelled ("host coercion in -")) st
      | .mul =>
          match argN args 0, argN args 1 with
          | some (.num a), some (.num b) => .ok (some (.num (a.mul b))) st
          | _, _ => .err (.unmodelled ("host coercion in *")) st
      | .div =>
          match argN args 0, argN args 1 with
          | some (.num a), some (.num b) =>
              match a.divQ b with
              | some q => .ok (some (.num q)) st
              | none => .err (.unmodelled ("division by zero")) st
          | _, _ => .err (.unmodelled ("host coercion in div")) st
      | .lt =>
          match argN args 0, argN args 1 with
          | some (.num a), some (.num b) => .ok (some (.bool (a.ltb b))) st
          | _, _ => .err (.unmodelled ("host coercion in <")) st
      | .gt =>
          match argN args 0, argN args 1 with
          | some (.num a), some (.num b) => .ok (some (.bool (a.gtb b))) st
          | _, _ => .err (.unmodelled ("host coercion in >")) st
      | .eqp => .ok (some (.bool (logoEqualO (argN args 0) (argN args 1)))) st
      | .stop =>
          if atGlobalContext st then .err (.stx ("stop is not allowed at top level")) st
          else .ok none (setCurrentCtx st (fun c => { c with stop := true }))
      | .outputB =>
          if atGlobalContext st then .err (.stx ("output is not allowed at top level")) st
          else .ok none (setCurrentCtx st (fun c => { c with stop := true, output := argN args 0 }))
      | .run =>
          match argN args 0 with
          | some .nil => evaluateF fuel .nil st
          | some (.cons h t) => evaluateF fuel (.cons h t) st
          | _ => .err (.typ ("block must be a list")) st
      | .runresult => runresultF fuel (argN args 0) st
      | .repeatB =>
          match argN args 0 with
          | some (.num times) =>
              match argN args 1 with
              | some .nil => repeatLoopF fuel 0 times .nil st
              | some (.cons h t) => repeatLoopF fuel 0 times (.cons h t) st
              | _ => .err (.typ ("block must be a list")) st
          | _ => .err (.typ ("times must be a number")) st
      | .item => itemB args st
      | .first => firstB args st
      | .uminus =>
          match argN args 0 with
          | some (.num a) => .ok (some (.num a.neg)) st
          | _ => .err (.unmodelled ("host coercion in unary minus")) st
termination_by structural fuel => fuel

/-- The `runresult` builtin: a non-list block is a TypeError; otherwise
evaluate the block and return the empty list for no value, a singleton
list for a value. -/
def runresultF : Nat → Option LogoVal → LogoState → Res (Option LogoVal)
  | 0, _, _ => .timeout
  | fuel + 1, block, st =>
      match block with
      | some .nil => runresultGo (evaluateF fuel .nil st)
      | some (.cons h t) => runresultGo (evaluateF fuel (.cons h t) st)
      | _ => .err (.typ ("block must be a list")) st
termination_by structural fuel => fuel

/-- The iteration loop of `repeat`: run the block while i < times,
breaking when the current context's stop flag is set after an
iteration. -/
def repeatLoopF : Nat → Nat → JsNum → LogoVal → LogoState → Res (Option LogoVal)
  | 0, _, _, _, _ => .timeout
  | fuel + 1, i, times, block, st =>
      if (i : Int) * times.d < times.n then
        match evaluateF fuel block st with
        | .ok _ st2 =>
            if currentStop st2 then .ok none st2
            else repeatLoopF fuel (i + 1) times block st2
        | .err e st2 => .err e st2
        | .timeout => .timeout
      else .ok none st
termination_by structural fuel => fuel

end

/-- The procedure-scope registry restricted to the builtins the verified
programs call. -/
def initialProcs : List (String × Proc) :=
  [("print", .builtin ("print") .print),
   ("show", .builtin ("show") .showB),
   ("+", .builtin ("+") .add),
   ("-", .builtin ("-") .sub),
   ("*", .builtin ("*") .mul),
   ("/", .builtin ("/") .div),
   ("<", .builtin ("<") .lt),
   (">", .builtin (">") .gt),
   ("=", .builtin ("=") .eqp),
   ("stop", .builtin ("stop") .stop),
   ("output", .builtin ("output") .outputB),
   ("run", .builtin ("run") .run),
   ("runresult", .builtin ("runresult") .runresult),
   ("repeat", .builtin ("repeat") .repeatB),
   ("item", .builtin ("item") .item),
   ("first", .builtin ("first") .first)]

/-- A fresh Interpreter: empty global variable scope, the global
context, the builtin registry, nothing printed, all flags clear. -/
def initState : LogoState :=
  { frames := [[]], store := [], contexts := [{ output := none, stop := false }],
    procs := initialProcs, printed := [], running := false, breakFlag := false,
    paused := false }

/-- The `finally` cleanup of Interpreter.execute on the modelled state:
clear breakFlag and running. -/
def cleanupExec (st : LogoState) : LogoState := { st with breakFlag := false, running := false }

/-- Interpreter.execute(source): refuse re-entry, parse (before the
running flag is set), evaluate, reject a leftover value as the unhandled
output SyntaxError, and run the finally cleanup on every settled path. -/
def execute (fuel : Nat) (source : String) (st : LogoState) : Res Unit :=
  if st.running then .err (.host ("Logo code is already running")) st
  else
    match parse fuel source with
    | .fail e => .err e st
    | .out => .timeout
    | .done prog =>
        let st1 := { st with running := true }
        match evaluateF fuel prog st1 with
        | .ok none st2 => .ok () (cleanupExec st2)
        | .ok (some v) st2 =>
            .err (.stx ("Unhandled output value " ++ stringify ("[", "]") v)) (cleanupExec st2)
        | .err e st2 => .err e (cleanupExec st2)
        | .timeout => .timeout

/-- Execute a source text on a fresh interpreter. -/
def runLogo (fuel : Nat) (source : String) : Res Unit := execute fuel source initState

/-- The lines printed by a successful run. -/
def finalPrinted : Res Unit → Option (List String)
  | .ok _ st => some st.printed
  | _ => none

/-- The error of a failed run together with the lines printed before the
failure. -/
def finalErr : Res Unit → Option (LogoErr × List String)
  | .err e st => some (e, st.printed)
  | _ => none

/-! ## Theorems -/

set_option maxRecDepth 200000

/-- Reading a store cell just overwritten in place. -/
theorem storeGet_set_self (l : Store) (i : Nat) (a : Option LogoVal) (h : i < l.length) :
    storeGet (l.set i a) i = a := by
  induction l generalizing i with
  | nil => exact absurd h (by simp)
  | cons x xs ih =>
      cases i with
      | zero => rfl
      | succ j => exact ih j (Nat.lt_of_succ_lt_succ h)

/-- Reading the store cell appended at the end. -/
theorem storeGet_append_self (l : Store) (a : Option LogoVal) :
    storeGet (l ++ [a]) l.length = a := by
  induction l with
  | nil => rfl
  | cons x xs ih => exact ih

/-- bindInRoot rewrites only the last frame of the chain. -/
theorem bindInRoot_append (pre : List Frame) (rootF : Frame) (name : String) (id : Nat) :
    bindInRoot (pre ++ [rootF]) name id = pre ++ [(name, id) :: rootF] := by
  induction pre with
  | nil => rfl
  | cons f pre' ih =>
      cases pre' with
      | nil => rfl
      | cons g pre'' =>
          show f :: bindInRoot ((g :: pre'') ++ [rootF]) name id = _
          rw [ih]
          rfl

/-- A name unbound in a chain resolves to a binding freshly installed in
the chain's root frame. -/
theorem scopeGetBinding_after_root_bind (pre : List Frame) (rootF : Frame) (name : String)
    (id : Nat) (h : scopeGetBinding (pre ++ [rootF]) name = none) :
    scopeGetBinding (pre ++ [(name, id) :: rootF]) name = some id := by
  induction pre with
  | nil =>
      simp only [List.nil_append, scopeGetBinding, List.lookup] at h ⊢
      simp
  | cons f pre' ih =>
      simp only [List.cons_append, scopeGetBinding] at h ⊢
      cases hf : f.lookup name with
      | some i => rw [hf] at h; simp at h
      | none => rw [hf] at h; exact ih h

/-- C4: the claim that Interpreter.parse is total fails: on the input
"]" the top-level loop calls parseMain, which finds no token class for
']' and falls through to parseWord, which records an empty word token
without consuming the character; the cursor never advances and the parse
runs forever.  In the fuel model, parsing "]" exhausts every fuel
amount. -/
theorem parse_rbracket_diverges : ∀ fuel : Nat, parse fuel ("]") = PRes.out := by
  have aux : ∀ (fuel : Nat) (acc : List LogoVal),
      parseTopF fuel { src := [']'], pos := 0, acc := acc, stk := [] } = PRes.out := by
    intro fuel
    induction fuel with
    | zero => intro acc; rfl
    | succ f ih =>
        intro acc
        cases f with
        | zero => rfl
        | succ g =>
            cases g with
            | zero => rfl
            | succ h => exact ih (acc ++ [.str ("")])
  intro fuel
  exact aux fuel []

/-- C1: operator-priority climbing with the table
star/slash 10, plus/minus 5, comparisons 1 makes
`print 1 + 2 * 3 - 4` print the single line "3". -/
theorem precedence_chain_prints_three :
    precedence ("*") = some 10 ∧ precedence ("/") = some 10 ∧
    precedence ("+") = some 5 ∧ precedence ("-") = some 5 ∧
    precedence ("<") = some 1 ∧ precedence (">") = some 1 ∧
    precedence ("=") = some 1 ∧
    finalPrinted (runLogo 1000 "print 1 + 2 * 3 - 4") = some ["3"] :=
  ⟨rfl, rfl, rfl, rfl, rfl, rfl, rfl, rfl⟩

/-- C2: `stop` inside a repeat block sets the enclosing procedure
context's stop flag, which ends the block before the second print, ends
the remaining repeat iterations, and returns from the procedure — the
program prints "1" exactly once. -/
theorem stop_short_circuits_repeat :
    finalPrinted (runLogo 1000 "to f repeat 10 [ print 1 stop print 2 ] end f") = some ["1"] :=
  rfl

/-- C8: a leading minus directly followed by a digit and preceded by
whitespace becomes part of the numeral, so `print -3 + 4` prints "1",
while `print 3 -4` parses as two adjacent literals and execute rejects
the dangling value with a SyntaxError (after the print of "3" has
already happened). -/
theorem minus_disambiguation :
    finalPrinted (runLogo 1000 "print -3 + 4") = some ["1"] ∧
    parse 200 "print 3 -4" =
      .done (ofList [.str ("print"), .num ⟨3, 1⟩, .num ⟨-4, 1⟩]) ∧
    finalErr (runLogo 1000 "print 3 -4") =
      some (.stx ("Unhandled output value -4"), ["3"]) :=
  ⟨rfl, rfl, rfl⟩

/-- C5 counterexample: the evaluator does not treat a recorded "=" token
after a value as an infix operator — isOperator (built on reOperators,
which omits '=') rejects it, so `print 1 = 2` prints "1" and then fails
parsing "=" as a prefix command starved of arguments, instead of
printing the comparison result. -/
theorem equals_not_infix_cex :
    isOperator (some (.str ("="))) = false ∧
    finalErr (runLogo 1000 "print 1 = 2") =
      some (.stx ("End of input expecting fixed arg"), ["1"]) :=
  ⟨rfl, rfl⟩

/-- C5 amended: the characters + - * / < > ( ) are always recorded as
their own single-character tokens; '=' is tokenized through the word
path, so it forms its own token only when set off by whitespace or
delimiters (`1 = 2` gives the three tokens 1, "=", 2, but `a=b` is one
word token).  The evaluator's isOperator excludes '=' even though the
priority table has an entry for it; '=' is only invocable as a prefix
procedure of arity 2. -/
theorem operator_tokens_amended :
    parse 200 "1 = 2" = .done (ofList [.num ⟨1, 1⟩, .str ("="), .num ⟨2, 1⟩]) ∧
    parse 200 "1+2" = .done (ofList [.num ⟨1, 1⟩, .str ("+"), .num ⟨2, 1⟩]) ∧
    parse 200 "a=b" = .done (ofList [.str ("a=b")]) ∧
    isOperator (some (.str ("+"))) = true ∧ isOperator (some (.str ("-"))) = true ∧
    isOperator (some (.str ("*"))) = true ∧ isOperator (some (.str ("/"))) = true ∧
    isOperator (some (.str ("<"))) = true ∧ isOperator (some (.str (">"))) = true ∧
    isOperator (some (.str ("="))) = false ∧
    precedence ("=") = some 1 ∧
    initState.procs.lookup ("=") = some (.builtin ("=") .eqp) ∧
    (.builtin ("=") .eqp : Proc).arity = 2 :=
  ⟨rfl, rfl, rfl, rfl, rfl, rfl, rfl, rfl, rfl, rfl, rfl, rfl, rfl⟩

/-- C6 counterexample: print strips brackets from nested lists too, not
only from the top level — stringifying [a [b c] d] with the empty
delimiter pair yields "a b c d", not "a [b c] d", and the program
`print [a [b c] d]` prints "a b c d". -/
theorem print_nested_brackets_cex :
    stringify ("", "") (ofList [.str ("a"), ofList [.str ("b"), .str ("c")], .str ("d")]) =
      "a b c d" ∧
    stringify ("", "") (ofList [.str ("a"), ofList [.str ("b"), .str ("c")], .str ("d")]) ≠
      "a [b c] d" ∧
    finalPrinted (runLogo 1000 "print [a [b c] d]") = some ["a b c d"] :=
  ⟨rfl, by decide, rfl⟩

/-- C6 amended: print and show stringification differ only in the
delimiter pair, which is applied uniformly at every list depth: a nested
list item is rendered with the same delimiters as its parent, print
passes the empty pair and show the bracket pair for the whole value. -/
theorem stringify_uniform_delims (d : String × String) (h t rest : LogoVal) (v : LogoVal)
    (st : LogoState) :
    stringify d (.cons (.cons h t) rest) =
      d.1 ++ (d.1 ++ stringifyGo d false h ++ stringifyGo d true t ++ d.2) ++
        stringifyGo d true rest ++ d.2 ∧
    bapplyF 1 .print [some v] st =
      .ok none { st with printed := st.printed ++ [stringify ("", "") v] } ∧
    bapplyF 1 .showB [some v] st =
      .ok none { st with printed := st.printed ++ [stringify ("[", "]") v] } :=
  ⟨rfl, rfl, rfl⟩

/-- C7: `item` on a word is 0-based, contradicting the 1-based claim:
item 1 "ab" is "b" while first "ab" is "a"; item at the word's length
returns undefined instead of raising; on lists the walk is 1-based as
claimed, and the end-to-end program `print item 1 "ab` prints "b". -/
theorem item_string_zero_based_bug :
    itemB [some (.num ⟨1, 1⟩), some (.str ("ab"))] initState =
      .ok (some (.str ("b"))) initState ∧
    firstB [some (.str ("ab"))] initState = .ok (some (.str ("a"))) initState ∧
    itemB [some (.num ⟨2, 1⟩), some (.str ("ab"))] initState = .ok none initState ∧
    itemB [some (.num ⟨1, 1⟩), some (ofList [.str ("a"), .str ("b")])] initState =
      .ok (some (.str ("a"))) initState ∧
    finalPrinted (runLogo 1000 "print item 1 \"ab") = some ["b"] :=
  ⟨rfl, rfl, rfl, rfl, rfl⟩

/-- C9 counterexample: set on a bound name does mutate in place without
creating a shadow, but a get from a descendant scope does not always see
the new value: a pre-existing shadowing binding of the same name in the
descendant wins.  Here the root binds x (cell 0), the descendant chain
has its own x (cell 5-valued cell 1); after setting x to 42 from the
root, the descendant still reads 5. -/
theorem scope_set_shadow_cex :
    scopeSet [[("x", 0)]] [some (.num ⟨1, 1⟩), some (.num ⟨5, 1⟩)] ("x") (.num ⟨42, 1⟩) =
      ([[("x", 0)]], [some (.num ⟨42, 1⟩), some (.num ⟨5, 1⟩)]) ∧
    scopeGet [[("x", 1)], [("x", 0)]] [some (.num ⟨42, 1⟩), some (.num ⟨5, 1⟩)] ("x") =
      some (some (.num ⟨5, 1⟩)) ∧
    (⟨5, 1⟩ : JsNum) ≠ ⟨42, 1⟩ :=
  ⟨rfl, rfl, by decide⟩

/-- C9 amended: set on a name bound in the chain updates that binding's
cell in place, leaving every frame unchanged; a get then returns the new
value from any scope whose lookup resolves to that same binding (in
particular any descendant with no intervening shadow).  A name unbound
in the whole chain is freshly bound in the root frame, where the whole
chain then finds it. -/
theorem scope_set_spec (chain chain2 : List Frame) (store : Store) (name : String)
    (val : LogoVal) :
    (∀ id, scopeGetBinding chain name = some id → id < store.length →
      scopeSet chain store name val = (chain, store.set id (some val)) ∧
      (scopeGetBinding chain2 name = some id →
        scopeGet chain2 (store.set id (some val)) name = some (some val))) ∧
    (scopeGetBinding chain name = none →
      ∀ pre rootF, chain = pre ++ [rootF] →
        scopeSet chain store name val =
          (pre ++ [(name, store.length) :: rootF], store ++ [some val]) ∧
        scopeGet (pre ++ [(name, store.length) :: rootF]) (store ++ [some val]) name =
          some (some val)) := by
  constructor
  · intro id hbind hlt
    constructor
    · simp [scopeSet, hbind]
    · intro h2
      simp [scopeGet, h2, storeGet_set_self store id (some val) hlt]
  · intro hnone pre rootF hchain
    subst hchain
    constructor
    · simp [scopeSet, hnone, bindInRoot_append]
    · have hb := scopeGetBinding_after_root_bind pre rootF name store.length hnone
      simp [scopeGet, hb, storeGet_append_self]

/-- C9 amended, witness: a concrete bound-name update read back through a
descendant chain, and a concrete unbound-name set landing in the root. -/
theorem scope_set_spec_witness :
    (scopeSet [[("x", 0)]] [some (.num ⟨7, 1⟩)] ("x") (.num ⟨42, 1⟩) =
        ([[("x", 0)]], [some (.num ⟨42, 1⟩)]) ∧
      scopeGet [[], [("x", 0)]] [some (.num ⟨42, 1⟩)] ("x") = some (some (.num ⟨42, 1⟩))) ∧
    (scopeSet [[], [("y", 0)]] [some (.bool true)] ("x") (.num ⟨42, 1⟩) =
        ([[], [("x", 1), ("y", 0)]], [some (.bool true), some (.num ⟨42, 1⟩)]) ∧
      scopeGet [[], [("x", 1), ("y", 0)]] [some (.bool true), some (.num ⟨42, 1⟩)] ("x") =
        some (some (.num ⟨42, 1⟩))) := by
  constructor
  · have h := scope_set_spec [[("x", 0)]] [[], [("x", 0)]] [some (.num ⟨7, 1⟩)] ("x")
      (.num ⟨42, 1⟩)
    have h1 := h.1 0 rfl (by decide)
    exact ⟨h1.1, h1.2 rfl⟩
  · have h := scope_set_spec [[], [("y", 0)]] [[], [("y", 0)]] [some (.bool true)] ("x")
      (.num ⟨42, 1⟩)
    have h2 := h.2 rfl [[]] [("y", 0)] rfl
    exact ⟨h2.1, h2.2⟩

/-- C3 counterexample: after execute settles, running and breakFlag are
cleared, but a pending onbreak or oncontinue callback is not dropped:
breaking during `wait` leaves the wait canceller in onbreak, and a
pause that parked and was continued leaves both parked callbacks
installed through normal completion. -/
theorem execute_onbreak_cex :
    (runCtrl [.waitRegister, .hostBreak]).running = false ∧
    (runCtrl [.waitRegister, .hostBreak]).breakFlag = false ∧
    (runCtrl [.waitRegister, .hostBreak]).onbreak = some 0 ∧
    (runCtrl [.waitRegister, .hostBreak]).onbreak ≠ none ∧
    (runCtrl [.hostPause, .parkAtCheckBreak, .hostContinue]).oncontinue = some 1 ∧
    (runCtrl [.hostPause, .parkAtCheckBreak, .hostContinue]).oncontinue ≠ none := by
  decide

/-- C3 amended: whenever execute settles — whatever sequence of wait,
pause, continue and break events the run performed — the finally block
leaves running and breakFlag false, and leaves onbreak and oncontinue
exactly as the run left them (they are not dropped). -/
theorem execute_settle_amended (evs : List CtrlEv) (st : LogoState) :
    (executeSettle (evs.foldl ctrlStep ctrlStart)).running = false ∧
    (executeSettle (evs.foldl ctrlStep ctrlStart)).breakFlag = false ∧
    (executeSettle (evs.foldl ctrlStep ctrlStart)).onbreak =
      (evs.foldl ctrlStep ctrlStart).onbreak ∧
    (executeSettle (evs.foldl ctrlStep ctrlStart)).oncontinue =
      (evs.foldl ctrlStep ctrlStart).oncontinue ∧
    (cleanupExec st).running = false ∧
    (cleanupExec st).breakFlag = false :=
  ⟨rfl, rfl, rfl, rfl, rfl, rfl⟩

/-- C10: runresult on a non-list block is the block-must-be-a-list
TypeError; on a list block it evaluates the block and returns the empty
list when the evaluation produced no value and a one-element list
holding the value when it produced one. -/
theorem runresult_spec (fuel : Nat) (st : LogoState) :
    (∀ b, isListV b = false →
      runresultF (fuel + 1) b st = .err (.typ ("block must be a list")) st) ∧
    (∀ l st2, isListV (some l) = true → evaluateF fuel l st = .ok none st2 →
      runresultF (fuel + 1) (some l) st = .ok (some .nil) st2) ∧
    (∀ l v st2, isListV (some l) = true → evaluateF fuel l st = .ok (some v) st2 →
      runresultF (fuel + 1) (some l) st = .ok (some (.cons v .nil)) st2) := by
  refine ⟨?_, ?_, ?_⟩
  · intro b hb
    match b with
    | none => rfl
    | some (.num _) => rfl
    | some (.bool _) => rfl
    | some (.str _) => rfl
    | some .nil => simp [isListV] at hb
    | some (.cons _ _) => simp [isListV] at hb
  · intro l st2 hl he
    match l with
    | .num _ => simp [isListV] at hl
    | .bool _ => simp [isListV] at hl
    | .str _ => simp [isListV] at hl
    | .nil => show runresultGo (evaluateF fuel .nil st) = _; rw [he]; rfl
    | .cons h t => show runresultGo (evaluateF fuel (.cons h t) st) = _; rw [he]; rfl
  · intro l v st2 hl he
    match l with
    | .num _ => simp [isListV] at hl
    | .bool _ => simp [isListV] at hl
    | .str _ => simp [isListV] at hl
    | .nil => show runresultGo (evaluateF fuel .nil st) = _; rw [he]; rfl
    | .cons h t => show runresultGo (evaluateF fuel (.cons h t) st) = _; rw [he]; rfl

/-- C10 witness: runresult on a number, on the empty block, and on a
block producing the value 3. -/
theorem runresult_spec_witness :
    runresultF 10 (some (.num ⟨3, 1⟩)) initState =
      .err (.typ ("block must be a list")) initState ∧
    runresultF 10 (some .nil) initState = .ok (some .nil) initState ∧
    runresultF 10 (some (.cons (.num ⟨3, 1⟩) .nil)) initState =
      .ok (some (.cons (.num ⟨3, 1⟩) .nil)) initState := by
  refine ⟨(runresult_spec 9 initState).1 _ rfl,
    (runresult_spec 9 initState).2.1 _ _ rfl rfl,
    (runresult_spec 9 initState).2.2 _ _ _ rfl rfl⟩

end TurtleLogo
